import Mathlib

/-!
Verification development for a single-screen breakout game (src/game.js).
The per-frame simulation core is embedded shallowly: positions and
velocities are real numbers, the brick grid is a list, and the global
mutable session variables become a `GameState` record threaded through
the step functions. Randomness (launch angle, launch direction, bonus
assignment) is injected as explicit parameters, as the design notes of
the specification require for testability. Sound-effect calls are
modelled as emitted events carrying the same names as the `sfx` table.
-/

namespace Breakout

/-- Canvas width (canvas.width = 480). -/
def W : ℝ := 480

/-- Canvas height (canvas.height = 520). -/
def H : ℝ := 520

/-- Paddle width constant. -/
def PADDLE_W : ℝ := 80

/-- Paddle height constant. -/
def PADDLE_H : ℝ := 12

/-- Paddle row: H - 36. -/
def PADDLE_Y : ℝ := H - 36

/-- Paddle speed per tick. -/
def PADDLE_SPEED : ℝ := 7

/-- Ball radius. -/
def BALL_R : ℝ := 7

/-- Base ball speed. -/
def BASE_SPEED : ℝ := 4

/-- Number of brick columns. -/
def BRICK_COLS : ℕ := 10

/-- Number of brick rows. -/
def BRICK_ROWS : ℕ := 6

/-- Gap between bricks. -/
def BRICK_GAP : ℝ := 4

/-- Top offset of the brick grid. -/
def BRICK_TOP : ℝ := 60

/-- Brick width derived from canvas width: (W - (COLS+1)*GAP) / COLS. -/
noncomputable def BRICK_W : ℝ := (W - ((BRICK_COLS : ℝ) + 1) * BRICK_GAP) / (BRICK_COLS : ℝ)

/-- Brick height constant. -/
def BRICK_H : ℝ := 18

/-- Points per row (top to bottom). -/
def ROW_POINTS : List ℕ := [7, 5, 4, 3, 2, 1]

/-- Points awarded for a bonus brick. -/
def BONUS_POINTS : ℕ := 20

/-- Top-level state labels of the session. -/
inductive GState where
  | idle
  | playing
  | paused
  | dead
  | win
  | gameover
deriving DecidableEq, Repr

/-- Discrete events of a tick; one constructor per entry of the `sfx`
table in the source (sound effects are the observable event channel). -/
inductive Event where
  | wall
  | paddle
  | brick
  | loseLife
  | levelUp
  | gameOver
  | bonus
deriving DecidableEq, Repr

/-- Paddle record. -/
structure Paddle where
  x : ℝ
  y : ℝ
  w : ℝ
  h : ℝ

/-- Ball record. -/
structure Ball where
  x : ℝ
  y : ℝ
  r : ℝ
  vx : ℝ
  vy : ℝ
  stuck : Bool

/-- Brick record; hp is an integer so that the decrement of the source
is modelled exactly (never clamped). The smiley marker is rendering
only and is omitted. -/
structure Brick where
  x : ℝ
  y : ℝ
  w : ℝ
  h : ℝ
  hp : ℤ
  maxHp : ℤ
  row : ℕ
  col : ℕ
  alive : Bool
  bonus : Bool

/-- Session record: the top-level mutable variables of the module. -/
structure GameState where
  state : GState
  score : ℕ
  lives : ℤ
  level : ℕ
  paddle : Paddle
  ball : Ball
  bricks : List Brick

/-- Continuous input intent read from the key map at the start of a tick. -/
structure Input where
  left : Bool
  right : Bool

/-- Clamp helper: Math.max(lo, Math.min(hi, v)). -/
noncomputable def clamp (v lo hi : ℝ) : ℝ := max lo (min hi v)

/-- Math.hypot on two arguments. -/
noncomputable def hypot (a b : ℝ) : ℝ := Real.sqrt (a ^ 2 + b ^ 2)

/-- Brick factory (makeBricks): row-major double loop over the grid.
The bonus coin flips (Math.random() < BONUS_CHANCE) are injected as the
function isBonus, per the seedable-randomness requirement. -/
noncomputable def makeBricks (level : ℕ) (isBonus : ℕ → ℕ → Bool) : List Brick :=
  (List.range BRICK_ROWS).flatMap fun (r : ℕ) =>
    (List.range BRICK_COLS).map fun (c : ℕ) =>
      { x := BRICK_GAP + (c : ℝ) * (BRICK_W + BRICK_GAP)
        y := BRICK_TOP + (r : ℝ) * (BRICK_H + BRICK_GAP)
        w := BRICK_W
        h := BRICK_H
        hp := if 3 ≤ level ∧ r < 2 then 2 else 1
        maxHp := if 3 ≤ level ∧ r < 2 then 2 else 1
        row := r
        col := c
        alive := true
        bonus := isBonus r c }

/-- Paddle part of initLevel: centered at the paddle row. -/
noncomputable def createPaddle : Paddle :=
  { x := W / 2 - PADDLE_W / 2, y := PADDLE_Y, w := PADDLE_W, h := PADDLE_H }

/-- Ball part of initLevel. The random launch angle (30 to 90 degrees)
and the random left/right direction are injected as parameters. -/
noncomputable def createBall (level : ℕ) (angle : ℝ) (dirRight : Bool) : Ball :=
  let speedUp : ℝ := 1 + ((level : ℝ) - 1) * 0.12
  let sp := BASE_SPEED * speedUp
  { x := W / 2
    y := PADDLE_Y - BALL_R - 2
    r := BALL_R
    vx := sp * Real.cos angle * (if dirRight then 1 else -1)
    vy := -(sp * Real.sin angle)
    stuck := true }

/-- initLevel: fresh paddle, ball and brick grid for the current level. -/
noncomputable def initLevel (s : GameState) (angle : ℝ) (dirRight : Bool)
    (isBonus : ℕ → ℕ → Bool) : GameState :=
  { s with
    paddle := createPaddle
    ball := createBall s.level angle dirRight
    bricks := makeBricks s.level isBonus }

/-- startGame: reset counters, init level 1, enter playing. -/
noncomputable def startGame (angle : ℝ) (dirRight : Bool)
    (isBonus : ℕ → ℕ → Bool) : GameState :=
  { state := GState.playing
    score := 0
    lives := 3
    level := 1
    paddle := createPaddle
    ball := createBall 1 angle dirRight
    bricks := makeBricks 1 isBonus }

/-- nextLevel: increment level, init it, go to idle awaiting continue. -/
noncomputable def nextLevel (s : GameState) (angle : ℝ) (dirRight : Bool)
    (isBonus : ℕ → ℕ → Bool) : GameState :=
  let s1 := initLevel { s with level := s.level + 1 } angle dirRight isBonus
  { s1 with state := GState.idle }

/-- loseLife: decrement lives; at zero go to gameover, otherwise reset
only the ball (components at BASE_SPEED, not level-scaled) and recenter
the paddle. The random horizontal direction is injected as dirRight. -/
noncomputable def loseLife (s : GameState) (dirRight : Bool) : GameState × List Event :=
  let lives := s.lives - 1
  if lives ≤ 0 then
    ({ s with lives := lives, state := GState.gameover }, [Event.gameOver])
  else
    ({ s with
        lives := lives
        ball :=
          { x := W / 2
            y := PADDLE_Y - BALL_R - 2
            r := BALL_R
            vx := BASE_SPEED * (if dirRight then 1 else -1)
            vy := -BASE_SPEED
            stuck := true }
        paddle := { s.paddle with x := W / 2 - PADDLE_W / 2 } },
      [Event.loseLife])

/-- movePaddle: apply left/right intent, clamp to the field, and keep a
stuck ball centered over the paddle. -/
noncomputable def movePaddle (inp : Input) (p : Paddle) (b : Ball) : Paddle × Ball :=
  let x1 := if inp.left then p.x - PADDLE_SPEED else p.x
  let x2 := if inp.right then x1 + PADDLE_SPEED else x1
  let p1 : Paddle := { p with x := clamp x2 0 (W - p.w) }
  (p1, if b.stuck then { b with x := p1.x + p1.w / 2 } else b)

/-- mousemove handler body while playing: paddle centered on the cursor,
clamped; a stuck ball follows. -/
noncomputable def mouseMove (mx : ℝ) (p : Paddle) (b : Ball) : Paddle × Ball :=
  let p1 : Paddle := { p with x := clamp (mx - p.w / 2) 0 (W - p.w) }
  (p1, if b.stuck then { b with x := p1.x + p1.w / 2 } else b)

/-- launchBall: clear the stuck flag (no effect once launched). -/
def launchBall (b : Ball) : Ball :=
  if b.stuck then { b with stuck := false } else b

/-- Wall collision section of moveBall: left/right are an if/else-if
chain, the top check is independent; each contact clamps the position,
reflects the velocity component and emits one wall event. -/
noncomputable def wallStep (b : Ball) : Ball × List Event :=
  let lr : Ball × List Event :=
    if b.x - b.r < 0 then ({ b with x := b.r, vx := |b.vx| }, [Event.wall])
    else if b.x + b.r > W then ({ b with x := W - b.r, vx := -|b.vx| }, [Event.wall])
    else (b, [])
  if lr.1.y - lr.1.r < 0 then
    ({ lr.1 with y := lr.1.r, vy := |lr.1.vy| }, lr.2 ++ [Event.wall])
  else lr

/-- Paddle collision condition of moveBall: ball moving down, bottom
edge inside the vertical band of the paddle, horizontal overlap
inclusive of the radius on both ends. -/
def paddleHitCond (b : Ball) (p : Paddle) : Prop :=
  b.vy > 0 ∧ b.y + b.r ≥ p.y ∧ b.y + b.r ≤ p.y + p.h ∧
    b.x ≥ p.x - b.r ∧ b.x ≤ p.x + p.w + b.r

noncomputable instance (b : Ball) (p : Paddle) : Decidable (paddleHitCond b p) := by
  unfold paddleHitCond; infer_instance

/-- Paddle collision section of moveBall: on hit, the bounce angle is
rel times 70 degrees from vertical, the speed magnitude is kept, the
vertical component is forced upward, and the ball is repositioned just
above the paddle. -/
noncomputable def paddleStep (b : Ball) (p : Paddle) : Ball × List Event :=
  if paddleHitCond b p then
    let rel := (b.x - (p.x + p.w / 2)) / (p.w / 2)
    let maxAng := 70 * (Real.pi / 180)
    let ang := rel * maxAng
    let sp := hypot b.vx b.vy
    ({ b with
        vy := -|sp * Real.cos ang|
        vx := sp * Real.sin ang
        y := p.y - b.r - 1 }, [Event.paddle])
  else (b, [])

/-- Brick collision test: the closest point of the brick rectangle to
the ball center lies strictly within the ball radius. -/
def brickHitTest (b : Ball) (br : Brick) : Prop :=
  let nearX := max br.x (min (br.x + br.w) b.x)
  let nearY := max br.y (min (br.y + br.h) b.y)
  (b.x - nearX) * (b.x - nearX) + (b.y - nearY) * (b.y - nearY) < b.r * b.r

noncomputable instance (b : Ball) (br : Brick) : Decidable (brickHitTest b br) := by
  unfold brickHitTest; infer_instance

/-- Scoring part of a registered brick hit: decrement hp; at zero mark
dead and award row points plus the bonus, emitting the bonus or brick
event; otherwise only the brick event. Returns the updated brick, the
awarded points and the emitted event. -/
def hitBrick (br : Brick) : Brick × ℕ × Event :=
  let hp := br.hp - 1
  if hp ≤ 0 then
    ({ br with hp := hp, alive := false },
      ROW_POINTS.getD br.row 0 + (if br.bonus then BONUS_POINTS else 0),
      if br.bonus then Event.bonus else Event.brick)
  else
    ({ br with hp := hp }, 0, Event.brick)

/-- Bounce part of a registered brick hit: reflect the velocity
component on the axis of shallower penetration. -/
noncomputable def reflectBall (b : Ball) (br : Brick) : Ball :=
  let nearX := clamp b.x br.x (br.x + br.w)
  let nearY := clamp b.y br.y (br.y + br.h)
  let dx := b.x - nearX
  let dy := b.y - nearY
  let overlapX := b.r - |dx|
  let overlapY := b.r - |dy|
  if overlapX < overlapY then
    { b with vx := if dx < 0 then -|b.vx| else |b.vx| }
  else
    { b with vy := if dy < 0 then -|b.vy| else |b.vy| }

/-- Brick loop of moveBall: scan the list in order, skip dead bricks,
resolve the first colliding alive brick and break (one brick per
frame). Returns the updated brick list, ball, awarded points and
emitted events. -/
noncomputable def brickPhase (b : Ball) : List Brick → List Brick × Ball × ℕ × List Event
  | [] => ([], b, 0, [])
  | br :: rest =>
    if br.alive = true ∧ brickHitTest b br then
      ((hitBrick br).1 :: rest, reflectBall b br, (hitBrick br).2.1, [(hitBrick br).2.2])
    else
      let res := brickPhase b rest
      (br :: res.1, res.2.1, res.2.2.1, res.2.2.2)

/-- moveBall: advance the position by the velocity, then run the fixed
collision order (walls, floor/life-loss, paddle, bricks) and finally the
win check. A stuck ball skips everything. -/
noncomputable def moveBall (s : GameState) (dirRight : Bool) : GameState × List Event :=
  if s.ball.stuck then (s, [])
  else
    let bm : Ball := { s.ball with x := s.ball.x + s.ball.vx, y := s.ball.y + s.ball.vy }
    let w := wallStep bm
    if w.1.y - w.1.r > H then
      let res := loseLife { s with ball := w.1 } dirRight
      (res.1, w.2 ++ res.2)
    else
      let pd := paddleStep w.1 s.paddle
      let bp := brickPhase pd.1 s.bricks
      let s1 : GameState :=
        { s with ball := bp.2.1, bricks := bp.1, score := s.score + bp.2.2.1 }
      if s1.bricks.all (fun br => !br.alive) then
        ({ s1 with state := GState.win }, w.2 ++ pd.2 ++ bp.2.2.2 ++ [Event.levelUp])
      else
        (s1, w.2 ++ pd.2 ++ bp.2.2.2)

/-- Loop body while playing: movePaddle then moveBall. -/
noncomputable def tick (s : GameState) (inp : Input) (dirRight : Bool) :
    GameState × List Event :=
  if s.state = GState.playing then
    let mp := movePaddle inp s.paddle s.ball
    moveBall { s with paddle := mp.1, ball := mp.2 } dirRight
  else (s, [])

/-- One observable transition of the session: a frame of the loop, the
launch key, a pointer move, or one of the overlay button actions. -/
inductive Step : GameState → GameState → Prop where
  | frame (s : GameState) (inp : Input) (dirRight : Bool) :
      s.state = GState.playing → Step s (tick s inp dirRight).1
  | launch (s : GameState) :
      s.state = GState.playing → Step s { s with ball := launchBall s.ball }
  | pointer (s : GameState) (mx : ℝ) :
      s.state = GState.playing →
      Step s { s with
        paddle := (mouseMove mx s.paddle s.ball).1
        ball := (mouseMove mx s.paddle s.ball).2 }
  | btnStart (s : GameState) :
      s.state = GState.idle → Step s { s with state := GState.playing }
  | btnNext (s : GameState) (angle : ℝ) (dirRight : Bool) (isBonus : ℕ → ℕ → Bool) :
      s.state = GState.win → s.level < 5 →
      Step s (nextLevel s angle dirRight isBonus)
  | btnReplay (s : GameState) (angle : ℝ) (dirRight : Bool) (isBonus : ℕ → ℕ → Bool) :
      s.state = GState.win → ¬ s.level < 5 →
      Step s (startGame angle dirRight isBonus)
  | btnOther (s : GameState) (angle : ℝ) (dirRight : Bool) (isBonus : ℕ → ℕ → Bool) :
      s.state ≠ GState.idle → s.state ≠ GState.win →
      Step s (startGame angle dirRight isBonus)

/-- Boot state of the module: initLevel runs once at script load with
counters at their initial values and the state label idle. -/
noncomputable def bootState (angle : ℝ) (dirRight : Bool)
    (isBonus : ℕ → ℕ → Bool) : GameState :=
  { state := GState.idle
    score := 0
    lives := 3
    level := 1
    paddle := createPaddle
    ball := createBall 1 angle dirRight
    bricks := makeBricks 1 isBonus }

/-- Reachable session states: reflexive-transitive closure of Step. -/
def Reachable : GameState → GameState → Prop := Relation.ReflTransGen Step

/-- Position advance of moveBall (ball.x += vx; ball.y += vy), as a
named abbreviation used by theorem statements. -/
def advanceBall (b : Ball) : Ball := { b with x := b.x + b.vx, y := b.y + b.vy }

/-- Concrete ball for the C4 witness (dead-center hit, moving down). -/
def cBall4 : Ball := ⟨240, 480, 7, 0, 4, false⟩

/-- Concrete paddle for the C4 witness. -/
def cPad4 : Paddle := ⟨200, 484, 80, 12⟩

/-- Concrete brick used by concrete game states in witnesses. -/
def cBrick : Brick := ⟨0, 0, 10, 10, 1, 1, 0, 0, true, false⟩

/-- Concrete state for the C1 witness: ball far below the floor. -/
def cState1 : GameState :=
  { state := GState.playing, score := 0, lives := 2, level := 1
    paddle := ⟨200, 484, 80, 12⟩, ball := ⟨240, 600, 7, 0, 4, false⟩
    bricks := [cBrick] }

/-- Concrete state for the C2 counterexample: playing, one life left,
ball one unit below the floor line but with its leading edge (top of
the check, y - r) still above the floor threshold after the advance. -/
def cState2 : GameState :=
  { state := GState.playing, score := 0, lives := 1, level := 1
    paddle := ⟨200, 484, 80, 12⟩, ball := ⟨240, 521, 7, 0, 4, false⟩
    bricks := [cBrick] }

/-- Concrete state for the C1 counterexample: playing, two lives, ball
whose leading edge (y + r) crosses the floor line after the advance
while its trailing edge (y - r) does not, so the floor check of the
code does not fire. -/
def cStateBand : GameState :=
  { state := GState.playing, score := 0, lives := 2, level := 1
    paddle := ⟨200, 484, 80, 12⟩, ball := ⟨240, 521, 7, 0, 4, false⟩
    bricks := [cBrick] }

/-- Concrete state for the C2 witness: like cState2 but with the ball
fully below the floor threshold. -/
def cState2b : GameState :=
  { state := GState.playing, score := 0, lives := 1, level := 1
    paddle := ⟨200, 484, 80, 12⟩, ball := ⟨240, 600, 7, 0, 4, false⟩
    bricks := [cBrick] }

/-- Concrete state for C3: playing, two lives, mid-run counters. -/
def cState3 : GameState :=
  { state := GState.playing, score := 5, lives := 2, level := 4
    paddle := ⟨100, 484, 80, 12⟩, ball := ⟨240, 600, 7, 3, 4, false⟩
    bricks := [cBrick] }

/-- Concrete dead brick for the C7 witness. -/
def cDead7 : Brick := ⟨0, 0, 4, 4, 0, 1, 0, 0, false, false⟩

/-- Concrete first colliding brick for the C7 witness. -/
def cHit7 : Brick := ⟨0, 0, 4, 4, 2, 2, 0, 1, true, false⟩

/-- Concrete later colliding brick for the C7 witness. -/
def cHit7b : Brick := ⟨0, 0, 4, 4, 1, 1, 0, 2, true, false⟩

/-- Concrete ball overlapping all three bricks for the C7 witness. -/
def cBall7 : Ball := ⟨1, 1, 7, 2, 3, false⟩

/-- Pointwise relation between a brick and its state one tick later:
hit points never increase and never go negative, an alive brick keeps
at least one hit point, a dead brick is untouched, and a brick at zero
or fewer hit points is dead. -/
def BrickRel (br br2 : Brick) : Prop :=
  br2.hp ≤ br.hp ∧ 0 ≤ br2.hp ∧ (br2.alive = true → 1 ≤ br2.hp) ∧
    (br.alive = false → br2 = br) ∧ (br2.hp ≤ 0 → br2.alive = false)

/-- Grid invariant: no negative hit points, alive bricks have at least
one hit point. -/
def BrickInv (l : List Brick) : Prop :=
  ∀ br ∈ l, 0 ≤ br.hp ∧ (br.alive = true → 1 ≤ br.hp)

/-- Inductive invariant for the lives counter: within range, and at
least one life outside the gameover state. -/
def LivesInv (s : GameState) : Prop :=
  0 ≤ s.lives ∧ s.lives ≤ 3 ∧ (s.state ≠ GState.gameover → 1 ≤ s.lives)

lemma hypot_nonneg (a b : ℝ) : 0 ≤ hypot a b := Real.sqrt_nonneg _

lemma hypot_sq_eq (a b : ℝ) : hypot a b ^ 2 = a ^ 2 + b ^ 2 := by
  have h : (0:ℝ) ≤ a ^ 2 + b ^ 2 := by positivity
  simpa [hypot] using Real.sq_sqrt h

lemma hypot_paddle_bounce (vx vy ang : ℝ) :
    hypot (hypot vx vy * Real.sin ang) (-|hypot vx vy * Real.cos ang|) =
      hypot vx vy := by
  set sp := hypot vx vy with hsp
  have hnn : 0 ≤ sp := hypot_nonneg vx vy
  have hsum : (sp * Real.sin ang) ^ 2 + (sp * Real.cos ang) ^ 2 = sp ^ 2 := by
    have h := Real.sin_sq_add_cos_sq ang
    linear_combination sp ^ 2 * h
  calc hypot (sp * Real.sin ang) (-|sp * Real.cos ang|)
      = Real.sqrt ((sp * Real.sin ang) ^ 2 + (sp * Real.cos ang) ^ 2) := by
        simp [hypot, sq_abs]
    _ = Real.sqrt (sp ^ 2) := by rw [hsum]
    _ = sp := Real.sqrt_sq hnn

/-- C5: across a wall bounce, a brick bounce and a paddle contact the
speed magnitude hypot(vx, vy) of the ball is unchanged. -/
theorem bounce_preserves_speed :
    ∀ (b : Ball) (br : Brick) (p : Paddle),
      hypot (wallStep b).1.vx (wallStep b).1.vy = hypot b.vx b.vy ∧
      hypot (reflectBall b br).vx (reflectBall b br).vy = hypot b.vx b.vy ∧
      hypot (paddleStep b p).1.vx (paddleStep b p).1.vy = hypot b.vx b.vy := by
  intro b br p
  refine ⟨?_, ?_, ?_⟩
  · simp only [wallStep]
    split_ifs <;> simp [hypot, sq_abs, neg_sq]
  · simp only [reflectBall]
    split_ifs <;> simp [hypot, sq_abs, neg_sq]
  · simp only [paddleStep]
    split_ifs with h
    · exact hypot_paddle_bounce b.vx b.vy _
    · rfl

/-- C6: after the keyboard paddle move and after the pointer paddle
move, the paddle x position lies within [0, W - paddle.w], provided the
paddle is no wider than the field. -/
theorem paddle_x_in_bounds (inp : Input) (p : Paddle) (b : Ball) (mx : ℝ)
    (hw : p.w ≤ W) :
    (0 ≤ (movePaddle inp p b).1.x ∧ (movePaddle inp p b).1.x ≤ W - p.w) ∧
    (0 ≤ (mouseMove mx p b).1.x ∧ (mouseMove mx p b).1.x ≤ W - p.w) := by
  have h1 : ∀ v : ℝ, 0 ≤ clamp v 0 (W - p.w) := fun v => le_max_left _ _
  have h2 : ∀ v : ℝ, clamp v 0 (W - p.w) ≤ W - p.w := fun v =>
    max_le (by linarith) (min_le_left _ _)
  exact ⟨⟨h1 _, h2 _⟩, ⟨h1 _, h2 _⟩⟩

/-- C6 witness: concrete instantiation of paddle_x_in_bounds. -/
theorem paddle_x_in_bounds_witness :
    ((⟨200, 484, 80, 12⟩ : Paddle).w ≤ W) ∧
    ((0 ≤ (movePaddle ⟨true, false⟩ ⟨200, 484, 80, 12⟩
          ⟨240, 500, 7, 0, 4, false⟩).1.x ∧
      (movePaddle ⟨true, false⟩ ⟨200, 484, 80, 12⟩
          ⟨240, 500, 7, 0, 4, false⟩).1.x ≤ W - (⟨200, 484, 80, 12⟩ : Paddle).w) ∧
     (0 ≤ (mouseMove 300 ⟨200, 484, 80, 12⟩ ⟨240, 500, 7, 0, 4, false⟩).1.x ∧
      (mouseMove 300 ⟨200, 484, 80, 12⟩ ⟨240, 500, 7, 0, 4, false⟩).1.x ≤
        W - (⟨200, 484, 80, 12⟩ : Paddle).w)) :=
  ⟨by norm_num [W],
   paddle_x_in_bounds ⟨true, false⟩ ⟨200, 484, 80, 12⟩
     ⟨240, 500, 7, 0, 4, false⟩ 300 (by norm_num [W])⟩

/-- C4: on a paddle hit the new velocity follows the rel-to-angle law
(angle rel times 70 degrees from vertical), keeps the speed magnitude,
always points upward, is straight up at a dead-center hit, and makes a
70 degree angle with positive vx at a far-right-edge hit. -/
theorem paddle_bounce_formula (b : Ball) (p : Paddle)
    (hc : paddleHitCond b p) (hw : p.w = PADDLE_W) (hr : b.r = BALL_R)
    (hsp : 0 < hypot b.vx b.vy) :
    (paddleStep b p).1.vx =
      hypot b.vx b.vy *
        Real.sin ((b.x - (p.x + p.w / 2)) / (p.w / 2) * (70 * (Real.pi / 180))) ∧
    (paddleStep b p).1.vy =
      -(hypot b.vx b.vy *
        Real.cos ((b.x - (p.x + p.w / 2)) / (p.w / 2) * (70 * (Real.pi / 180)))) ∧
    (paddleStep b p).1.vy < 0 ∧
    hypot (paddleStep b p).1.vx (paddleStep b p).1.vy = hypot b.vx b.vy ∧
    (b.x = p.x + p.w / 2 →
      (paddleStep b p).1.vx = 0 ∧ (paddleStep b p).1.vy = -(hypot b.vx b.vy)) ∧
    (b.x = p.x + p.w →
      (paddleStep b p).1.vx = hypot b.vx b.vy * Real.sin (70 * (Real.pi / 180)) ∧
      0 < (paddleStep b p).1.vx) := by
  have hW80 : p.w = 80 := by rw [hw]; norm_num [PADDLE_W]
  have hR7 : b.r = 7 := by rw [hr]; norm_num [BALL_R]
  obtain ⟨hvy, hb1, hb2, hx1, hx2⟩ := hc
  have hcc : paddleHitCond b p := ⟨hvy, hb1, hb2, hx1, hx2⟩
  have hps : paddleStep b p =
      ({ b with
          vy := -|hypot b.vx b.vy *
            Real.cos ((b.x - (p.x + p.w / 2)) / (p.w / 2) * (70 * (Real.pi / 180)))|
          vx := hypot b.vx b.vy *
            Real.sin ((b.x - (p.x + p.w / 2)) / (p.w / 2) * (70 * (Real.pi / 180)))
          y := p.y - b.r - 1 }, [Event.paddle]) := by
    simp only [paddleStep, if_pos hcc, hypot]
  set sp := hypot b.vx b.vy with hspdef
  set rel := (b.x - (p.x + p.w / 2)) / (p.w / 2) with hreldef
  set ang := rel * (70 * (Real.pi / 180)) with hangdef
  have hpi : 0 < Real.pi := Real.pi_pos
  have hrelub : rel ≤ 47 / 40 := by
    rw [hreldef, hW80]
    rw [div_le_div_iff₀ (by norm_num) (by norm_num)]
    rw [hW80, hR7] at hx2
    linarith
  have hrellb : -(47 / 40) ≤ rel := by
    rw [hreldef, hW80]
    rw [neg_le, ← neg_div]
    rw [div_le_div_iff₀ (by norm_num) (by norm_num)]
    rw [hR7] at hx1
    linarith
  have hangub : ang < Real.pi / 2 := by
    rw [hangdef]
    nlinarith
  have hanglb : -(Real.pi / 2) < ang := by
    rw [hangdef]
    nlinarith
  have hcos : 0 < Real.cos ang := Real.cos_pos_of_mem_Ioo ⟨hanglb, hangub⟩
  have hspnn : 0 ≤ sp := hypot_nonneg _ _
  have habs : |sp * Real.cos ang| = sp * Real.cos ang :=
    abs_of_nonneg (mul_nonneg hspnn hcos.le)
  refine ⟨?_, ?_, ?_, ?_, ?_, ?_⟩
  · rw [hps]
  · rw [hps]; simp only [habs]
  · rw [hps]
    simp only [habs]
    have : 0 < sp * Real.cos ang := mul_pos hsp hcos
    linarith
  · rw [hps]
    exact hypot_paddle_bounce b.vx b.vy ang
  · intro hxc
    have hrel0 : rel = 0 := by
      rw [hreldef, hxc]
      simp
    constructor
    · rw [hps]
      simp only [hangdef, hrel0, zero_mul]
      simp
    · rw [hps]
      simp only [hangdef, hrel0, zero_mul]
      simp [abs_of_nonneg hspnn]
  · intro hxe
    have hrel1 : rel = 1 := by
      rw [hreldef, hxe, hW80]
      norm_num
    have hang70 : ang = 70 * (Real.pi / 180) := by rw [hangdef, hrel1, one_mul]
    have hsin : 0 < Real.sin (70 * (Real.pi / 180)) := by
      apply Real.sin_pos_of_pos_of_lt_pi
      · positivity
      · nlinarith
    constructor
    · rw [hps]
      simp only [hang70]
    · rw [hps]
      simp only [hang70]
      exact mul_pos hsp hsin

/-- C4 witness: concrete instantiation of paddle_bounce_formula. -/
theorem paddle_bounce_formula_witness :
    paddleHitCond cBall4 cPad4 ∧ 0 < hypot cBall4.vx cBall4.vy ∧
    ((paddleStep cBall4 cPad4).1.vx =
      hypot cBall4.vx cBall4.vy *
        Real.sin ((cBall4.x - (cPad4.x + cPad4.w / 2)) / (cPad4.w / 2) *
          (70 * (Real.pi / 180))) ∧
    (paddleStep cBall4 cPad4).1.vy =
      -(hypot cBall4.vx cBall4.vy *
        Real.cos ((cBall4.x - (cPad4.x + cPad4.w / 2)) / (cPad4.w / 2) *
          (70 * (Real.pi / 180)))) ∧
    (paddleStep cBall4 cPad4).1.vy < 0 ∧
    hypot (paddleStep cBall4 cPad4).1.vx (paddleStep cBall4 cPad4).1.vy =
      hypot cBall4.vx cBall4.vy ∧
    (cBall4.x = cPad4.x + cPad4.w / 2 →
      (paddleStep cBall4 cPad4).1.vx = 0 ∧
      (paddleStep cBall4 cPad4).1.vy = -(hypot cBall4.vx cBall4.vy)) ∧
    (cBall4.x = cPad4.x + cPad4.w →
      (paddleStep cBall4 cPad4).1.vx =
        hypot cBall4.vx cBall4.vy * Real.sin (70 * (Real.pi / 180)) ∧
      0 < (paddleStep cBall4 cPad4).1.vx)) := by
  have h1 : paddleHitCond cBall4 cPad4 := by
    simp only [paddleHitCond, cBall4, cPad4]
    norm_num
  have h2 : (0:ℝ) < hypot cBall4.vx cBall4.vy := by
    simp only [hypot, cBall4]
    rw [Real.sqrt_pos]
    norm_num
  exact ⟨h1, h2,
    paddle_bounce_formula cBall4 cPad4 h1 (by norm_num [cPad4, PADDLE_W])
      (by norm_num [cBall4, BALL_R]) h2⟩

lemma wallStep_yr (b : Ball) (h : ¬ b.y - b.r < 0) :
    (wallStep b).1.y = b.y ∧ (wallStep b).1.r = b.r := by
  simp only [wallStep]
  split_ifs <;> simp_all

lemma wallStep_events (b : Ball) : ∀ e ∈ (wallStep b).2, e = Event.wall := by
  simp only [wallStep]
  split_ifs <;> simp_all

lemma loseLife_parts (s : GameState) (d : Bool) :
    (loseLife s d).1.bricks = s.bricks ∧ (loseLife s d).1.score = s.score ∧
    (loseLife s d).1.level = s.level ∧
    ((loseLife s d).2 = [Event.gameOver] ∨ (loseLife s d).2 = [Event.loseLife]) := by
  simp only [loseLife]
  split_ifs <;> simp

lemma moveBall_floor (s : GameState) (d : Bool)
    (hstuck : s.ball.stuck = false)
    (hfloor : H < s.ball.y + s.ball.vy - s.ball.r) :
    moveBall s d =
      ((loseLife { s with ball := (wallStep (advanceBall s.ball)).1 } d).1,
        (wallStep (advanceBall s.ball)).2 ++
          (loseLife { s with ball := (wallStep (advanceBall s.ball)).1 } d).2) := by
  have hH : (0:ℝ) < H := by norm_num [H]
  have hnot : ¬ ((advanceBall s.ball).y - (advanceBall s.ball).r < 0) := by
    intro hlt
    simp only [advanceBall] at hlt
    linarith
  obtain ⟨hy, hr⟩ := wallStep_yr (advanceBall s.ball) hnot
  have hcond : (wallStep (advanceBall s.ball)).1.y -
      (wallStep (advanceBall s.ball)).1.r > H := by
    rw [hy, hr]
    simp only [advanceBall]
    exact hfloor
  simp only [moveBall, hstuck, Bool.false_eq_true, if_false]
  simp only [advanceBall, hstuck] at hcond ⊢
  rw [if_pos hcond]

/-- C1 counterexample: a ball whose leading edge (y + r) has passed the
floor line after the advance, while its trailing edge (y - r) has not,
does NOT end the tick with a life-lost condition: the code compares
y - r to the floor, so the tick runs on through the paddle and brick
checks, leaving the state playing and lives unchanged with no life-loss
or game-over event. -/
theorem floor_leading_edge_counterexample :
    cStateBand.ball.stuck = false ∧
    H < (advanceBall cStateBand.ball).y + (advanceBall cStateBand.ball).r ∧
    ¬ H < (advanceBall cStateBand.ball).y - (advanceBall cStateBand.ball).r ∧
    (tick cStateBand ⟨false, false⟩ true).1.state = GState.playing ∧
    (tick cStateBand ⟨false, false⟩ true).1.lives = 2 ∧
    Event.loseLife ∉ (tick cStateBand ⟨false, false⟩ true).2 ∧
    Event.gameOver ∉ (tick cStateBand ⟨false, false⟩ true).2 := by
  refine ⟨rfl, by norm_num [cStateBand, advanceBall, H],
    by norm_num [cStateBand, advanceBall, H], ?_⟩
  have hstep : tick cStateBand ⟨false, false⟩ true =
      ({ cStateBand with ball := ⟨240, 525, 7, 0, 4, false⟩, paddle := ⟨200, 484, 80, 12⟩ }, []) := by
    norm_num [tick, cStateBand, movePaddle, clamp, moveBall, wallStep, paddleStep,
      paddleHitCond, brickPhase, brickHitTest, hitBrick, reflectBall, loseLife,
      cBrick, H, W, PADDLE_SPEED]
  rw [hstep]
  refine ⟨rfl, rfl, by simp, by simp⟩

/-- C1 (amended): the floor check fires on the trailing edge, not the
leading edge: when the advanced ball has FULLY passed the floor
(y - r > H), the tick ends with the life-loss handler: the result is
exactly loseLife applied after the wall phase, the brick grid, score
and level are untouched by the collision phase, and no paddle, brick,
bonus or level event is emitted. -/
theorem floor_crossing_short_circuits (s : GameState) (d : Bool)
    (hstuck : s.ball.stuck = false)
    (hfloor : H < s.ball.y + s.ball.vy - s.ball.r) :
    moveBall s d =
      ((loseLife { s with ball := (wallStep (advanceBall s.ball)).1 } d).1,
        (wallStep (advanceBall s.ball)).2 ++
          (loseLife { s with ball := (wallStep (advanceBall s.ball)).1 } d).2) ∧
    (moveBall s d).1.bricks = s.bricks ∧
    (moveBall s d).1.score = s.score ∧
    (moveBall s d).1.level = s.level ∧
    Event.paddle ∉ (moveBall s d).2 ∧
    Event.brick ∉ (moveBall s d).2 ∧
    Event.bonus ∉ (moveBall s d).2 ∧
    Event.levelUp ∉ (moveBall s d).2 := by
  have hmain := moveBall_floor s d hstuck hfloor
  obtain ⟨hbr, hsc, hlv, hev⟩ := loseLife_parts
    { s with ball := (wallStep (advanceBall s.ball)).1 } d
  have hwall := wallStep_events (advanceBall s.ball)
  have hmem : ∀ e, e ∈ (moveBall s d).2 →
      e = Event.wall ∨ e = Event.gameOver ∨ e = Event.loseLife := by
    intro e he
    rw [hmain] at he
    rcases List.mem_append.mp he with h | h
    · exact Or.inl (hwall e h)
    · rcases hev with hev | hev <;> rw [hev] at h <;> simp at h <;> simp [h]
  refine ⟨hmain, ?_, ?_, ?_, ?_, ?_, ?_, ?_⟩
  · rw [hmain]; exact hbr
  · rw [hmain]; exact hsc
  · rw [hmain]; exact hlv
  · intro hmemp
    rcases hmem _ hmemp with h | h | h <;> exact absurd h (by simp)
  · intro hmemp
    rcases hmem _ hmemp with h | h | h <;> exact absurd h (by simp)
  · intro hmemp
    rcases hmem _ hmemp with h | h | h <;> exact absurd h (by simp)
  · intro hmemp
    rcases hmem _ hmemp with h | h | h <;> exact absurd h (by simp)

/-- C1 witness: concrete instantiation of floor_crossing_short_circuits. -/
theorem floor_crossing_short_circuits_witness :
    cState1.ball.stuck = false ∧
    H < cState1.ball.y + cState1.ball.vy - cState1.ball.r ∧
    (moveBall cState1 true =
      ((loseLife { cState1 with ball := (wallStep (advanceBall cState1.ball)).1 } true).1,
        (wallStep (advanceBall cState1.ball)).2 ++
          (loseLife { cState1 with
            ball := (wallStep (advanceBall cState1.ball)).1 } true).2) ∧
    (moveBall cState1 true).1.bricks = cState1.bricks ∧
    (moveBall cState1 true).1.score = cState1.score ∧
    (moveBall cState1 true).1.level = cState1.level ∧
    Event.paddle ∉ (moveBall cState1 true).2 ∧
    Event.brick ∉ (moveBall cState1 true).2 ∧
    Event.bonus ∉ (moveBall cState1 true).2 ∧
    Event.levelUp ∉ (moveBall cState1 true).2) :=
  ⟨rfl, by norm_num [cState1, H],
    floor_crossing_short_circuits cState1 true rfl (by norm_num [cState1, H])⟩

lemma loseLife_gameover (s : GameState) (d : Bool) (h : s.lives ≤ 1) :
    (loseLife s d).1.state = GState.gameover ∧
    (loseLife s d).1.lives = s.lives - 1 ∧
    (loseLife s d).2 = [Event.gameOver] := by
  simp only [loseLife]
  rw [if_pos (by linarith : s.lives - 1 ≤ 0)]
  simp

lemma movePaddle_ball_unstuck (inp : Input) (p : Paddle) (b : Ball)
    (h : b.stuck = false) : (movePaddle inp p b).2 = b := by
  simp [movePaddle, h]

/-- C2 counterexample: with lives = 1 and ball.y = H + 1 the tick does
NOT produce a game over; the session stays in the playing state with
lives unchanged, because the floor check compares y - r (not y) to H. -/
theorem floor_scenario_counterexample :
    cState2.state = GState.playing ∧ cState2.lives = 1 ∧
    cState2.ball.y = H + 1 ∧
    (tick cState2 ⟨false, false⟩ true).1.state = GState.playing ∧
    (tick cState2 ⟨false, false⟩ true).1.state ≠ GState.gameover ∧
    (tick cState2 ⟨false, false⟩ true).1.lives = 1 ∧
    Event.gameOver ∉ (tick cState2 ⟨false, false⟩ true).2 := by
  refine ⟨rfl, rfl, by norm_num [cState2, H], ?_⟩
  have hstep : tick cState2 ⟨false, false⟩ true =
      ({ cState2 with ball := ⟨240, 525, 7, 0, 4, false⟩, paddle := ⟨200, 484, 80, 12⟩ }, []) := by
    norm_num [tick, cState2, movePaddle, clamp, moveBall, wallStep, paddleStep,
      paddleHitCond, brickPhase, brickHitTest, hitBrick, reflectBall, loseLife,
      cBrick, H, W, PADDLE_SPEED]
  rw [hstep]
  refine ⟨rfl, by simp [cState2], rfl, by simp⟩

/-- C2 (amended): in the playing state with lives = 1, whenever the
advanced ball has fully passed the floor (y - r > H, which a ball at
y = H + 1 only satisfies once it falls further), the tick runs the
life-loss handler and ends in gameover with a game-over event; in
general any life loss with at most one life left yields gameover. -/
theorem floor_crossing_gameover (s : GameState) (inp : Input) (d : Bool)
    (hplay : s.state = GState.playing)
    (hlives : s.lives = 1)
    (hstuck : s.ball.stuck = false)
    (hfloor : H < s.ball.y + s.ball.vy - s.ball.r) :
    (tick s inp d).1.state = GState.gameover ∧
    (tick s inp d).1.lives = 0 ∧
    Event.gameOver ∈ (tick s inp d).2 ∧
    ∀ (s2 : GameState) (d2 : Bool), s2.lives ≤ 1 →
      (loseLife s2 d2).1.state = GState.gameover ∧
      Event.gameOver ∈ (loseLife s2 d2).2 := by
  have htick : tick s inp d =
      moveBall { s with paddle := (movePaddle inp s.paddle s.ball).1, ball := s.ball } d := by
    simp only [tick]
    rw [if_pos hplay, movePaddle_ball_unstuck inp s.paddle s.ball hstuck]
  set s1 : GameState :=
    { s with paddle := (movePaddle inp s.paddle s.ball).1, ball := s.ball } with hs1
  have hmb := moveBall_floor s1 d hstuck hfloor
  have hlose := loseLife_gameover
    { s1 with ball := (wallStep (advanceBall s1.ball)).1 } d (by simp [hs1, hlives])
  refine ⟨?_, ?_, ?_, ?_⟩
  · rw [htick, hmb]
    exact hlose.1
  · rw [htick, hmb]
    rw [hlose.2.1]
    simp [hs1, hlives]
  · rw [htick, hmb]
    simp only [hlose.2.2]
    simp
  · intro s2 d2 h2
    exact ⟨(loseLife_gameover s2 d2 h2).1, by simp [(loseLife_gameover s2 d2 h2).2.2]⟩

/-- C2 witness: concrete instantiation of floor_crossing_gameover. -/
theorem floor_crossing_gameover_witness :
    cState2b.state = GState.playing ∧ cState2b.lives = 1 ∧
    cState2b.ball.stuck = false ∧
    H < cState2b.ball.y + cState2b.ball.vy - cState2b.ball.r ∧
    ((tick cState2b ⟨false, false⟩ true).1.state = GState.gameover ∧
     (tick cState2b ⟨false, false⟩ true).1.lives = 0 ∧
     Event.gameOver ∈ (tick cState2b ⟨false, false⟩ true).2 ∧
     ∀ (s2 : GameState) (d2 : Bool), s2.lives ≤ 1 →
       (loseLife s2 d2).1.state = GState.gameover ∧
       Event.gameOver ∈ (loseLife s2 d2).2) :=
  ⟨rfl, rfl, rfl, by norm_num [cState2b, H],
    floor_crossing_gameover cState2b ⟨false, false⟩ true rfl rfl rfl
      (by norm_num [cState2b, H])⟩

lemma sqrt_thirtytwo : Real.sqrt 32 = 4 * Real.sqrt 2 := by
  rw [show (32:ℝ) = 4 ^ 2 * 2 by norm_num, Real.sqrt_mul (by positivity),
    Real.sqrt_sq (by norm_num)]

/-- C3 counterexample: after a non-final life loss the new ball has
velocity components of magnitude BASE_SPEED each, so its speed
magnitude is sqrt 2 times BASE_SPEED, not BASE_SPEED as claimed. -/
theorem life_loss_speed_counterexample :
    (1:ℤ) < cState3.lives ∧ cState3.state = GState.playing ∧
    hypot (loseLife cState3 true).1.ball.vx (loseLife cState3 true).1.ball.vy ≠
      BASE_SPEED := by
  refine ⟨by norm_num [cState3], rfl, ?_⟩
  have hb : (loseLife cState3 true).1.ball =
      ⟨W / 2, PADDLE_Y - BALL_R - 2, BALL_R, BASE_SPEED * 1, -BASE_SPEED, true⟩ := by
    simp only [loseLife, cState3]
    norm_num
  rw [hb]
  simp only [hypot, BASE_SPEED]
  norm_num
  rw [sqrt_thirtytwo]
  intro he
  have h2 : Real.sqrt 2 = 1 := by linarith
  have := Real.sq_sqrt (by norm_num : (0:ℝ) ≤ 2)
  rw [h2] at this
  norm_num at this

/-- C3 (amended): a life loss that leaves lives positive resets the
ball (stuck, centered, components at BASE_SPEED each so the speed
magnitude is BASE_SPEED times sqrt 2, independent of the level) and
recenters the paddle, while the state stays playing and level, score
and brick grid are unchanged. -/
theorem life_loss_reset (s : GameState) (d : Bool)
    (hplay : s.state = GState.playing) (hl : 1 < s.lives) :
    (loseLife s d).1.ball.stuck = true ∧
    (loseLife s d).1.ball.x = W / 2 ∧
    (loseLife s d).1.ball.y = PADDLE_Y - BALL_R - 2 ∧
    (loseLife s d).1.ball.vy = -BASE_SPEED ∧
    (loseLife s d).1.ball.vx = BASE_SPEED * (if d then 1 else -1) ∧
    hypot (loseLife s d).1.ball.vx (loseLife s d).1.ball.vy =
      BASE_SPEED * Real.sqrt 2 ∧
    (loseLife s d).1.paddle.x = W / 2 - PADDLE_W / 2 ∧
    (loseLife s d).1.state = GState.playing ∧
    (loseLife s d).1.level = s.level ∧
    (loseLife s d).1.score = s.score ∧
    (loseLife s d).1.bricks = s.bricks ∧
    (loseLife s d).1.lives = s.lives - 1 := by
  have hne : ¬ (s.lives - 1 ≤ 0) := by omega
  have hl2 : (loseLife s d).1 = { s with
      lives := s.lives - 1
      ball := ⟨W / 2, PADDLE_Y - BALL_R - 2, BALL_R,
        BASE_SPEED * (if d then 1 else -1), -BASE_SPEED, true⟩
      paddle := { s.paddle with x := W / 2 - PADDLE_W / 2 } } := by
    simp only [loseLife]
    rw [if_neg hne]
  rw [hl2]
  refine ⟨rfl, rfl, rfl, rfl, rfl, ?_, rfl, hplay, rfl, rfl, rfl, rfl⟩
  cases d <;> simp only [hypot, BASE_SPEED, if_true, if_false] <;> norm_num <;>
    rw [sqrt_thirtytwo]

/-- C3 witness: concrete instantiation of life_loss_reset. -/
theorem life_loss_reset_witness :
    cState3.state = GState.playing ∧ (1:ℤ) < cState3.lives ∧
    ((loseLife cState3 true).1.ball.stuck = true ∧
    (loseLife cState3 true).1.ball.x = W / 2 ∧
    (loseLife cState3 true).1.ball.y = PADDLE_Y - BALL_R - 2 ∧
    (loseLife cState3 true).1.ball.vy = -BASE_SPEED ∧
    (loseLife cState3 true).1.ball.vx = BASE_SPEED * (if true then 1 else -1) ∧
    hypot (loseLife cState3 true).1.ball.vx (loseLife cState3 true).1.ball.vy =
      BASE_SPEED * Real.sqrt 2 ∧
    (loseLife cState3 true).1.paddle.x = W / 2 - PADDLE_W / 2 ∧
    (loseLife cState3 true).1.state = GState.playing ∧
    (loseLife cState3 true).1.level = cState3.level ∧
    (loseLife cState3 true).1.score = cState3.score ∧
    (loseLife cState3 true).1.bricks = cState3.bricks ∧
    (loseLife cState3 true).1.lives = cState3.lives - 1) :=
  ⟨rfl, by norm_num [cState3],
    life_loss_reset cState3 true rfl (by norm_num [cState3])⟩

lemma brickPhase_no_hit (b : Ball) :
    ∀ l : List Brick, (∀ x ∈ l, ¬(x.alive = true ∧ brickHitTest b x)) →
      brickPhase b l = (l, b, 0, []) := by
  intro l h
  induction l with
  | nil => rfl
  | cons x rest ih =>
    simp only [brickPhase]
    rw [if_neg (h x (by simp))]
    rw [ih (fun y hy => h y (by simp [hy]))]

lemma brickPhase_first_hit (b : Ball) (l1 : List Brick) (br : Brick) (l2 : List Brick)
    (h1 : ∀ x ∈ l1, ¬(x.alive = true ∧ brickHitTest b x))
    (h2 : br.alive = true) (h3 : brickHitTest b br) :
    brickPhase b (l1 ++ br :: l2) =
      (l1 ++ (hitBrick br).1 :: l2, reflectBall b br,
        (hitBrick br).2.1, [(hitBrick br).2.2]) := by
  induction l1 with
  | nil =>
    simp only [List.nil_append, brickPhase]
    rw [if_pos ⟨h2, h3⟩]
  | cons x rest ih =>
    simp only [List.cons_append, brickPhase]
    rw [if_neg (h1 x (by simp))]
    simp only [List.append_eq]
    rw [ih (fun y hy => h1 y (by simp [hy]))]

/-- C7: the brick loop resolves exactly the first alive colliding brick
in list order (the grid list is row-major), leaves every other brick
untouched even if it also overlaps the ball, and resolves nothing when
no alive brick collides. -/
theorem one_brick_per_tick (b : Ball) (l1 : List Brick) (br : Brick) (l2 : List Brick)
    (h1 : ∀ x ∈ l1, ¬(x.alive = true ∧ brickHitTest b x))
    (h2 : br.alive = true) (h3 : brickHitTest b br) :
    (brickPhase b (l1 ++ br :: l2)).1 = l1 ++ (hitBrick br).1 :: l2 ∧
    (brickPhase b (l1 ++ br :: l2)).2.1 = reflectBall b br ∧
    (brickPhase b (l1 ++ br :: l2)).2.2.1 = (hitBrick br).2.1 ∧
    (brickPhase b (l1 ++ br :: l2)).2.2.2 = [(hitBrick br).2.2] ∧
    ∀ l : List Brick, (∀ x ∈ l, ¬(x.alive = true ∧ brickHitTest b x)) →
      brickPhase b l = (l, b, 0, []) := by
  have hmain := brickPhase_first_hit b l1 br l2 h1 h2 h3
  refine ⟨?_, ?_, ?_, ?_, brickPhase_no_hit b⟩ <;> rw [hmain]

/-- C7 witness: concrete instantiation of one_brick_per_tick, with a
dead brick before the hit brick and a second overlapping brick after. -/
theorem one_brick_per_tick_witness :
    (∀ x ∈ [cDead7], ¬(x.alive = true ∧ brickHitTest cBall7 x)) ∧
    cHit7.alive = true ∧ brickHitTest cBall7 cHit7 ∧
    ((brickPhase cBall7 ([cDead7] ++ cHit7 :: [cHit7b])).1 =
      [cDead7] ++ (hitBrick cHit7).1 :: [cHit7b] ∧
    (brickPhase cBall7 ([cDead7] ++ cHit7 :: [cHit7b])).2.1 =
      reflectBall cBall7 cHit7 ∧
    (brickPhase cBall7 ([cDead7] ++ cHit7 :: [cHit7b])).2.2.1 =
      (hitBrick cHit7).2.1 ∧
    (brickPhase cBall7 ([cDead7] ++ cHit7 :: [cHit7b])).2.2.2 =
      [(hitBrick cHit7).2.2] ∧
    ∀ l : List Brick, (∀ x ∈ l, ¬(x.alive = true ∧ brickHitTest cBall7 x)) →
      brickPhase cBall7 l = (l, cBall7, 0, [])) := by
  have ha : ∀ x ∈ [cDead7], ¬(x.alive = true ∧ brickHitTest cBall7 x) := by
    intro x hx
    simp only [List.mem_singleton] at hx
    subst hx
    simp [cDead7]
  have hb : brickHitTest cBall7 cHit7 := by
    simp only [brickHitTest, cBall7, cHit7]
    norm_num
  exact ⟨ha, rfl, hb, one_brick_per_tick cBall7 [cDead7] cHit7 [cHit7b] ha rfl hb⟩

lemma hitBrick_brick (br : Brick) :
    (hitBrick br).1 = if br.hp - 1 ≤ 0
      then { br with hp := br.hp - 1, alive := false }
      else { br with hp := br.hp - 1 } := by
  simp only [hitBrick]
  split_ifs <;> rfl

lemma brickRel_refl (l : List Brick) (h : BrickInv l) :
    List.Forall₂ BrickRel l l := by
  rw [List.forall₂_same]
  intro y hy
  have hyinv := h y hy
  refine ⟨le_refl _, hyinv.1, hyinv.2, fun _ => rfl, fun hle => ?_⟩
  cases hya : y.alive with
  | false => rfl
  | true => exact absurd (hyinv.2 hya) (by omega)

lemma brickPhase_inv (b : Ball) (l : List Brick) (hinv : BrickInv l) :
    List.Forall₂ BrickRel l (brickPhase b l).1 := by
  induction l with
  | nil => simp [brickPhase]
  | cons x rest ih =>
    have hx := hinv x (by simp)
    have hrest : BrickInv rest := fun br hbr => hinv br (by simp [hbr])
    have hrefl : List.Forall₂ BrickRel rest rest := brickRel_refl rest hrest
    simp only [brickPhase]
    split_ifs with hc
    · refine List.Forall₂.cons ?_ hrefl
      unfold BrickRel
      have hal : 1 ≤ x.hp := hx.2 hc.1
      rw [hitBrick_brick]
      split_ifs with hz
      · refine ⟨?_, ?_, ?_, ?_, ?_⟩
        · show x.hp - 1 ≤ x.hp
          omega
        · show (0:ℤ) ≤ x.hp - 1
          omega
        · intro h
          simp at h
        · intro hf
          exact absurd hc.1 (by simp [hf])
        · intro _
          rfl
      · refine ⟨?_, ?_, ?_, ?_, ?_⟩
        · show x.hp - 1 ≤ x.hp
          omega
        · show (0:ℤ) ≤ x.hp - 1
          omega
        · intro _
          show (1:ℤ) ≤ x.hp - 1
          omega
        · intro hf
          exact absurd hc.1 (by simp [hf])
        · intro hle
          exact absurd (show x.hp - 1 ≤ 0 from hle) hz
    · refine List.Forall₂.cons ?_ (ih hrest)
      unfold BrickRel
      exact ⟨le_refl _, hx.1, hx.2, fun _ => rfl, fun hle => by
        cases hya : x.alive with
        | false => rfl
        | true => exact absurd (hx.2 hya) (by omega)⟩

lemma moveBall_bricks (s : GameState) (d : Bool) :
    (moveBall s d).1.bricks = s.bricks ∨
    (moveBall s d).1.bricks =
      (brickPhase (paddleStep (wallStep (advanceBall s.ball)).1 s.paddle).1
        s.bricks).1 := by
  simp only [moveBall]
  split_ifs with h1 h2 h3
  · exact Or.inl rfl
  · exact Or.inl (loseLife_parts _ d).1
  · exact Or.inr rfl
  · exact Or.inr rfl

lemma tick_bricks (s : GameState) (inp : Input) (d : Bool) :
    (tick s inp d).1.bricks = s.bricks ∨
    ∃ b : Ball, (tick s inp d).1.bricks = (brickPhase b s.bricks).1 := by
  simp only [tick]
  split_ifs with h
  · rcases moveBall_bricks
      { s with paddle := (movePaddle inp s.paddle s.ball).1
               ball := (movePaddle inp s.paddle s.ball).2 } d with h1 | h1
    · exact Or.inl h1
    · exact Or.inr ⟨_, h1⟩
  · exact Or.inl rfl

/-- C8: from a grid whose alive bricks all have at least one hit point
and none has negative hit points, the brick loop relates each brick
pointwise to its updated self by BrickRel (hp monotone non-increasing,
never negative, alive implies hp at least one, dead bricks untouched so
alive never returns, hp at zero implies dead); and every full tick
relates the grid to its successor the same way, so the properties hold
across all ticks of a level by induction. -/
theorem brick_hp_invariant (b : Ball) (l : List Brick) (s : GameState)
    (inp : Input) (d : Bool) (hinv : BrickInv l) (hinvS : BrickInv s.bricks) :
    List.Forall₂ BrickRel l (brickPhase b l).1 ∧
    List.Forall₂ BrickRel s.bricks (tick s inp d).1.bricks := by
  refine ⟨brickPhase_inv b l hinv, ?_⟩
  rcases tick_bricks s inp d with h | ⟨b2, h⟩
  · rw [h]
    exact brickRel_refl s.bricks hinvS
  · rw [h]
    exact brickPhase_inv b2 s.bricks hinvS

/-- C8 witness: concrete instantiation of brick_hp_invariant on a grid
with one dead, one damaged and one untouched brick, and on a concrete
playing state. -/
theorem brick_hp_invariant_witness :
    BrickInv [cDead7, cHit7, cHit7b] ∧ BrickInv cState3.bricks ∧
    (List.Forall₂ BrickRel [cDead7, cHit7, cHit7b]
      (brickPhase cBall7 [cDead7, cHit7, cHit7b]).1 ∧
    List.Forall₂ BrickRel cState3.bricks
      (tick cState3 ⟨false, false⟩ true).1.bricks) := by
  have ha : BrickInv [cDead7, cHit7, cHit7b] := by
    intro br hbr
    simp only [List.mem_cons, List.mem_singleton, List.not_mem_nil] at hbr
    rcases hbr with h | h | h | h <;> first
      | (subst h; simp [cDead7, cHit7, cHit7b])
      | exact absurd h (by simp)
  have hb : BrickInv cState3.bricks := by
    intro br hbr
    simp only [cState3, List.mem_singleton] at hbr
    subst hbr
    simp [cBrick]
  exact ⟨ha, hb,
    brick_hp_invariant cBall7 [cDead7, cHit7, cHit7b] cState3 ⟨false, false⟩ true ha hb⟩

lemma flatMap_range_length {α : Type} (g : ℕ → List α) (m : ℕ)
    (hg : ∀ i, (g i).length = m) :
    ∀ n, ((List.range n).flatMap g).length = n * m := by
  intro n
  induction n with
  | zero => simp
  | succ k ih =>
    rw [List.range_succ, List.flatMap_append, List.length_append, ih]
    simp [hg]
    ring

lemma flatMap_range_getElem {α : Type} (g : ℕ → List α) (m : ℕ)
    (hg : ∀ i, (g i).length = m) (n r c : ℕ) (hr : r < n) (hc : c < m) :
    ((List.range n).flatMap g)[r * m + c]? = (g r)[c]? := by
  induction n with
  | zero => omega
  | succ k ih =>
    rw [List.range_succ, List.flatMap_append]
    rcases Nat.lt_or_ge r k with h | h
    · rw [List.getElem?_append_left]
      · exact ih h
      · rw [flatMap_range_length g m hg k]
        have : r * m + c < (r + 1) * m := by
          have := hc
          nlinarith
        have hle : (r + 1) * m ≤ k * m := Nat.mul_le_mul_right m h
        omega
    · have hrk : r = k := by omega
      subst hrk
      rw [List.getElem?_append_right]
      · rw [flatMap_range_length g m hg r]
        simp
      · rw [flatMap_range_length g m hg r]
        omega

/-- C9: the brick at grid position (row, col) sits at list index
row * BRICK_COLS + col (row-major) and has the position given by the
gap and size constants, hit points and max hit points 2 exactly when
the level is at least 3 and the row is one of the top two (1 otherwise),
its own row and column indices, alive set, and the injected bonus flag. -/
theorem makeBricks_spec (level : ℕ) (f : ℕ → ℕ → Bool) (r c : ℕ)
    (hr : r < BRICK_ROWS) (hc : c < BRICK_COLS) :
    (makeBricks level f)[r * BRICK_COLS + c]? = some
      { x := BRICK_GAP + (c : ℝ) * (BRICK_W + BRICK_GAP)
        y := BRICK_TOP + (r : ℝ) * (BRICK_H + BRICK_GAP)
        w := BRICK_W
        h := BRICK_H
        hp := if 3 ≤ level ∧ r < 2 then 2 else 1
        maxHp := if 3 ≤ level ∧ r < 2 then 2 else 1
        row := r
        col := c
        alive := true
        bonus := f r c } ∧
    ((if 3 ≤ level ∧ r < 2 then (2:ℤ) else 1) = 2 ↔ 3 ≤ level ∧ r < 2) := by
  constructor
  · unfold makeBricks
    rw [flatMap_range_getElem _ BRICK_COLS (fun i => by simp) BRICK_ROWS r c hr hc]
    rw [List.getElem?_map, List.getElem?_range hc]
    rfl
  · split_ifs with h
    · simp [h]
    · simp [h]

/-- C9 witness: concrete instantiation of makeBricks_spec at level 3,
row 1, column 2 (a double-hit-point brick). -/
theorem makeBricks_spec_witness :
    1 < BRICK_ROWS ∧ 2 < BRICK_COLS ∧
    ((makeBricks 3 (fun _ _ => false))[1 * BRICK_COLS + 2]? = some
      { x := BRICK_GAP + ((2:ℕ) : ℝ) * (BRICK_W + BRICK_GAP)
        y := BRICK_TOP + ((1:ℕ) : ℝ) * (BRICK_H + BRICK_GAP)
        w := BRICK_W
        h := BRICK_H
        hp := if 3 ≤ 3 ∧ 1 < 2 then 2 else 1
        maxHp := if 3 ≤ 3 ∧ 1 < 2 then 2 else 1
        row := 1
        col := 2
        alive := true
        bonus := false } ∧
    ((if 3 ≤ 3 ∧ 1 < 2 then (2:ℤ) else 1) = 2 ↔ 3 ≤ 3 ∧ 1 < 2)) :=
  ⟨by norm_num [BRICK_ROWS], by norm_num [BRICK_COLS],
    makeBricks_spec 3 (fun _ _ => false) 1 2 (by norm_num [BRICK_ROWS])
      (by norm_num [BRICK_COLS])⟩

lemma loseLife_lives (s : GameState) (d : Bool) :
    (loseLife s d).1.lives = s.lives - 1 ∧
    ((loseLife s d).1.state = GState.gameover ∨
      ((loseLife s d).1.state = s.state ∧ 1 ≤ (loseLife s d).1.lives)) := by
  simp only [loseLife]
  split_ifs with h
  · exact ⟨rfl, Or.inl rfl⟩
  all_goals exact ⟨rfl, Or.inr ⟨rfl, by show (1:ℤ) ≤ s.lives - 1; omega⟩⟩

lemma moveBall_cases (s : GameState) (d : Bool) :
    ((moveBall s d).1.lives = s.lives ∧
      ((moveBall s d).1.state = s.state ∨ (moveBall s d).1.state = GState.win)) ∨
    (moveBall s d).1 =
      (loseLife { s with ball := (wallStep (advanceBall s.ball)).1 } d).1 := by
  simp only [moveBall]
  split_ifs with h1 h2 h3
  · exact Or.inl ⟨rfl, Or.inl rfl⟩
  · exact Or.inr rfl
  · exact Or.inl ⟨rfl, Or.inr rfl⟩
  · exact Or.inl ⟨rfl, Or.inl rfl⟩

lemma step_preserves_livesInv (s t : GameState) (hst : Step s t)
    (h : LivesInv s) : LivesInv t := by
  obtain ⟨h0, h3, h1⟩ := h
  cases hst with
  | frame inp d hplay =>
    have hs1 : 1 ≤ s.lives := h1 (by rw [hplay]; simp)
    simp only [tick]
    rw [if_pos hplay]
    set s1 : GameState :=
      { s with paddle := (movePaddle inp s.paddle s.ball).1
               ball := (movePaddle inp s.paddle s.ball).2 } with hs1def
    rcases moveBall_cases s1 d with ⟨hl, hs | hs⟩ | heq
    · exact ⟨by rw [hl]; exact h0, by rw [hl]; exact h3,
        fun _ => by rw [hl]; exact hs1⟩
    · exact ⟨by rw [hl]; exact h0, by rw [hl]; exact h3,
        fun _ => by rw [hl]; exact hs1⟩
    · rw [heq]
      obtain ⟨hll, hcase⟩ := loseLife_lives
        { s1 with ball := (wallStep (advanceBall s1.ball)).1 } d
      refine ⟨by rw [hll]; show (0:ℤ) ≤ s.lives - 1; omega,
        by rw [hll]; show s.lives - 1 ≤ 3; omega, ?_⟩
      intro hng
      rcases hcase with hg | ⟨_, hge⟩
      · exact absurd hg hng
      · exact hge
  | launch hplay =>
    exact ⟨h0, h3, fun _ => h1 (by rw [hplay]; simp)⟩
  | pointer mx hplay =>
    exact ⟨h0, h3, fun _ => h1 (by rw [hplay]; simp)⟩
  | btnStart hidle =>
    exact ⟨h0, h3, fun _ => h1 (by rw [hidle]; simp)⟩
  | btnNext angle dirRight isBonus hwin hlt =>
    exact ⟨h0, h3, fun _ => h1 (by rw [hwin]; simp)⟩
  | btnReplay angle dirRight isBonus hwin hlt =>
    exact ⟨by norm_num [startGame], by norm_num [startGame],
      fun _ => by norm_num [startGame]⟩
  | btnOther angle dirRight isBonus hni hnw =>
    exact ⟨by norm_num [startGame], by norm_num [startGame],
      fun _ => by norm_num [startGame]⟩

/-- C10: every session state reachable from the boot state keeps lives
within [0, 3], and while the state label is playing at least one life
remains (so no tick can drive lives negative). -/
theorem lives_in_range (angle : ℝ) (dirRight : Bool) (isBonus : ℕ → ℕ → Bool)
    (s : GameState) (h : Reachable (bootState angle dirRight isBonus) s) :
    0 ≤ s.lives ∧ s.lives ≤ 3 ∧ (s.state = GState.playing → 1 ≤ s.lives) := by
  have hinv : LivesInv s := by
    induction h with
    | refl =>
      exact ⟨by norm_num [bootState], by norm_num [bootState],
        fun _ => by norm_num [bootState]⟩
    | tail hpre hstep ih =>
      exact step_preserves_livesInv _ _ hstep ih
  exact ⟨hinv.1, hinv.2.1, fun hp => hinv.2.2 (by rw [hp]; simp)⟩

/-- C10 witness: the boot state itself is reachable and satisfies the
range property. -/
theorem lives_in_range_witness :
    Reachable (bootState 0 true fun _ _ => false) (bootState 0 true fun _ _ => false) ∧
    (0 ≤ (bootState 0 true fun _ _ => false).lives ∧
     (bootState 0 true fun _ _ => false).lives ≤ 3 ∧
     ((bootState 0 true fun _ _ => false).state = GState.playing →
       1 ≤ (bootState 0 true fun _ _ => false).lives)) :=
  ⟨Relation.ReflTransGen.refl,
    lives_in_range 0 true (fun _ _ => false) _ Relation.ReflTransGen.refl⟩

end Breakout
